import Mathlib

/-!
Verification development for the reddit-notifier polling-and-dispatch engine.

The Rust source is shallowly embedded as executable Lean definitions:

* `src/models/database.rs`  → `EndpointKind`, `EndpointRow`
* `src/models/reddit_api.rs`→ `RedditPost`, `RedditListing`
* `src/database.rs`         → `record_if_new`, `all_subreddit_endpoint_mappings`
* `src/rate_limiter.rs`     → `RateLimiter.new`, `RateLimiter.acquireStep`, `RateLimiter.acquire`
* `src/db_connection.rs`    → `ConnectionConfig`, `connect_with_retry`
* `src/poller.rs`           → `chunksOf`, `batchUrl`, `buildPostUrl`, `processPost`,
                              `pollBatch`, `pollCycle`, `poll_combined_subreddits_loop`

Effectful calls (SQLite queries, HTTP requests, notifier sends) are modelled by
explicit result values supplied through environment records, and instants are
modelled as natural-number milliseconds (`std::time::Instant` is monotone) while
`chrono` timestamps are integer milliseconds.  Machine integers that can
overflow in the source (`as u32` casts, `u32` addition) carry an explicit
`% 2^32`.
-/

/-! ## Data model (src/models/database.rs) -/

/-- Endpoint kinds, from `enum EndpointKind { Discord, Pushover }`. -/
inductive EndpointKind where
  | discord
  | pushover
deriving DecidableEq, Repr

/-- Parsing of the stored `kind` column, from `impl FromStr for EndpointKind`
(`"discord"` and `"pushover"` succeed, everything else is an error, here
`none`). -/
def EndpointKind.fromStr : String → Option EndpointKind
  | "discord" => some .discord
  | "pushover" => some .pushover
  | _ => none

/-- Parsed endpoint row, from `struct EndpointRow`. -/
structure EndpointRow where
  id : Int
  kind : EndpointKind
  config_json : String
  active : Bool
  note : Option String
deriving DecidableEq, Repr

/-! ## Reddit API model (src/models/reddit_api.rs) -/

/-- A post returned by the listing fetch, from `struct RedditPost`.
`created_utc` is the timestamp in integer milliseconds. -/
structure RedditPost where
  id : String
  title : String
  subreddit : String
  permalink : Option String
  url : Option String
  created_utc : Int
deriving DecidableEq, Repr

/-- Wrapper from `struct RedditChild`. -/
structure RedditChild where
  data : RedditPost
deriving DecidableEq, Repr

/-- Wrapper from `struct RedditListingData`. -/
structure RedditListingData where
  children : List RedditChild
deriving DecidableEq, Repr

/-- Wrapper from `struct RedditListing`. -/
structure RedditListing where
  data : RedditListingData
deriving DecidableEq, Repr

/-! ## Dedup store (src/database.rs)

The SQLite database is modelled as lists of raw table rows.  The schema comes
from the repository's migrations, which are not part of the engine sources;
the `notified_posts` uniqueness constraint is modelled from the spec. -/

/-- Raw `endpoints` table row: `kind` is the raw TEXT column, `active` the raw
INTEGER column. -/
structure DbEndpointRow where
  id : Int
  kind : String
  config_json : String
  active : Int
  note : Option String
deriving DecidableEq, Repr

/-- Raw `subscriptions` table row (the fields the engine queries read). -/
structure DbSubscriptionRow where
  id : Int
  subreddit : String
deriving DecidableEq, Repr

/-- Raw `subscription_endpoints` junction table row. -/
structure DbLinkRow where
  subscription_id : Int
  endpoint_id : Int
deriving DecidableEq, Repr

/-- Modelled from the spec: database state.  The spec (§3) guarantees the pair
`(subreddit, post_id)` is unique in `notified_posts`; the migration files that
install this UNIQUE constraint are outside the engine sources, so the ledger is
a list on which `record_if_new` checks membership, giving `INSERT OR IGNORE`
its documented at-most-once semantics. -/
structure Db where
  endpoints : List DbEndpointRow
  subscriptions : List DbSubscriptionRow
  subscription_endpoints : List DbLinkRow
  notified_posts : List (String × String)
deriving DecidableEq, Repr

/-- Result rows of the SQL query inside `all_subreddit_endpoint_mappings`:
`endpoints JOIN subscription_endpoints ON se.endpoint_id = e.id JOIN
subscriptions ON s.id = se.subscription_id WHERE e.active = 1`, selecting
`(s.subreddit, e.*)`.  The `ORDER BY s.subreddit` clause only permutes rows
and no claimed property depends on row order, so rows are produced in join
iteration order. -/
def mappingQueryRows (db : Db) : List (String × DbEndpointRow) :=
  (db.endpoints.filter (fun e => e.active == 1)).flatMap (fun e =>
    (db.subscription_endpoints.filter (fun se => se.endpoint_id == e.id)).flatMap (fun se =>
      (db.subscriptions.filter (fun s => s.id == se.subscription_id)).map (fun s =>
        (s.subreddit, e))))

/-- Conversion of a raw row into a parsed `EndpointRow`, from the row-handling
body of the loop in `all_subreddit_endpoint_mappings`: parse the `kind` column
(`none` means the row is skipped with a warning), read `active` as `!= 0`. -/
def rowToEndpoint (e : DbEndpointRow) : Option EndpointRow :=
  match EndpointKind.fromStr e.kind with
  | none => none
  | some k =>
    some { id := e.id, kind := k, config_json := e.config_json,
           active := e.active != 0, note := e.note }

/-- HashMap `entry(subreddit).or_default().push(endpoint)`: append to the
existing entry for the key, or create a fresh singleton entry.  The map is an
association list with unique keys. -/
def insertMapping (m : List (String × List EndpointRow)) (key : String)
    (ep : EndpointRow) : List (String × List EndpointRow) :=
  match m with
  | [] => [(key, [ep])]
  | (k, eps) :: rest =>
    if k = key then (k, eps ++ [ep]) :: rest
    else (k, eps) :: insertMapping rest key ep

/-- One iteration of the grouping loop in `all_subreddit_endpoint_mappings`:
rows whose `kind` fails to parse are skipped, the rest are pushed into the
map entry of their subreddit. -/
def addMappingRow (m : List (String × List EndpointRow))
    (row : String × DbEndpointRow) : List (String × List EndpointRow) :=
  match rowToEndpoint row.2 with
  | none => m
  | some ep => insertMapping m row.1 ep

/-- Fetch of every active feed→endpoint mapping, from
`all_subreddit_endpoint_mappings` in `src/database.rs`. -/
def all_subreddit_endpoint_mappings (db : Db) : List (String × List EndpointRow) :=
  (mappingQueryRows db).foldl addMappingRow []

/-- HashMap lookup `mappings.get(subreddit)` on the association-list map. -/
def lookupMapping : List (String × List EndpointRow) → String → Option (List EndpointRow)
  | [], _ => none
  | (k, v) :: rest, key => if k = key then some v else lookupMapping rest key

/-- Dedup-ledger insert, from `record_if_new` in `src/database.rs`:
`INSERT OR IGNORE INTO notified_posts (subreddit, post_id)` and report
`rows_affected() == 1`.  Under the spec's uniqueness invariant the insert is
ignored exactly when the pair is already present. -/
def record_if_new (db : Db) (subreddit post_id : String) : Bool × Db :=
  if (subreddit, post_id) ∈ db.notified_posts then (false, db)
  else (true, { db with notified_posts := db.notified_posts ++ [(subreddit, post_id)] })

/-! ## Rate limiter (src/rate_limiter.rs)

Instants are natural-number milliseconds.  `tokens` is a `u32` in the source;
the `as u32` cast of the refill division and the `u32` addition carry an
explicit `% 2^32` (release-mode wrapping). -/

/-- Modulus of the source's 32-bit token counter. -/
def U32_MOD : Nat := 4294967296

/-- Mutable limiter state behind the mutex, from `struct RateLimiterState`. -/
structure RateLimiterState where
  tokens : Nat
  last_refill : Nat
deriving DecidableEq, Repr

/-- Constructor, from `RateLimiter::new`: the bucket starts with exactly one
token (not `max_tokens`) and `last_refill` at the creation instant. -/
def RateLimiter.new (now : Nat) : RateLimiterState :=
  { tokens := 1, last_refill := now }

/-- Refill part of one `acquire` attempt: add
`floor(elapsed_ms / refill_ms)` tokens (cast `as u32`), cap at `max_tokens`,
and update `last_refill` only when at least one token was added. -/
def refillTokens (maxTokens refillMs now : Nat) (s : RateLimiterState) :
    RateLimiterState :=
  let elapsedMs := now - s.last_refill
  let tokensToAdd := elapsedMs / refillMs % U32_MOD
  if 0 < tokensToAdd then
    { tokens := min ((s.tokens + tokensToAdd) % U32_MOD) maxTokens,
      last_refill := now }
  else s

/-- Outcome of one pass through the `acquire` loop body: either a token was
consumed and the call returns, or the lock is released and the caller sleeps. -/
inductive AcquireOutcome where
  | acquired (s : RateLimiterState)
  | sleep (ms : Nat) (s : RateLimiterState)
deriving DecidableEq, Repr

/-- One pass through the body of `RateLimiter::acquire`, performed atomically
under the state mutex: refill, then consume a token and return if one is
available, else sleep `refill_rate / 2`. -/
def RateLimiter.acquireStep (maxTokens refillMs now : Nat)
    (s : RateLimiterState) : AcquireOutcome :=
  let s' := refillTokens maxTokens refillMs now s
  if 0 < s'.tokens then .acquired { s' with tokens := s'.tokens - 1 }
  else .sleep (refillMs / 2) s'

/-- The retrying `acquire` loop.  `times` supplies the instant observed at each
pass (the `Instant::now()` reads); the result is the state after the consuming
pass together with the list of sleep durations performed, or `none` if the
supplied instants ran out before a token was available. -/
def RateLimiter.acquire (maxTokens refillMs : Nat) :
    List Nat → RateLimiterState → Option (RateLimiterState × List Nat)
  | [], _ => none
  | t :: rest, s =>
    match RateLimiter.acquireStep maxTokens refillMs t s with
    | .acquired s' => some (s', [])
    | .sleep d s' =>
      match RateLimiter.acquire maxTokens refillMs rest s' with
      | none => none
      | some (s'', ds) => some (s'', d :: ds)

/-! ## Connection resilience (src/db_connection.rs) -/

/-- Retry configuration, from `struct ConnectionConfig`. -/
structure ConnectionConfig where
  max_retries : Nat
  initial_delay_ms : Nat
  max_delay_ms : Nat
deriving DecidableEq, Repr

/-- Defaults, from `impl Default for ConnectionConfig`. -/
def ConnectionConfig.defaults : ConnectionConfig :=
  { max_retries := 5, initial_delay_ms := 500, max_delay_ms := 5000 }

/-- Body of the retry loop in `connect_with_retry`.  `attemptOk n` is the
outcome of the `n`-th connection attempt (numbered from 1), `f` is the number
of failed attempts that may still be followed by a retry — at attempt number
`a` the source retries exactly when `a < max_retries`, so `f = max_retries - a`
and the `f = 0` branch is the `attempt >= config.max_retries` propagation
branch.  Returns (success, attempts made, delays slept), where the delay
doubles with cap after each sleep: `delay_ms = (delay_ms * 2).min(max_delay_ms)`. -/
def connectGo (attemptOk : Nat → Bool) (cap : Nat) :
    Nat → Nat → Nat → Bool × Nat × List Nat
  | 0, a, _ => (attemptOk a, 1, [])
  | f + 1, a, d =>
    if attemptOk a then (true, 1, [])
    else
      let r := connectGo attemptOk cap f (a + 1) (min (d * 2) cap)
      (r.1, r.2.1 + 1, d :: r.2.2)

/-- Connection establishment with retry, from `connect_with_retry`:
`attempt` starts at 0 and is incremented at the top of the loop, so the first
attempt is number 1 and `max_retries - 1` failures can still be retried
(`Nat` subtraction also covers `max_retries = 0`, where the source still makes
one attempt before `1 >= 0` propagates the error). -/
def connect_with_retry (attemptOk : Nat → Bool) (cfg : ConnectionConfig) :
    Bool × Nat × List Nat :=
  connectGo attemptOk cfg.max_delay_ms (cfg.max_retries - 1) 1 cfg.initial_delay_ms

/-- Delay sequence `d, min (d*2) cap, min (min (d*2) cap * 2) cap, ...` of
length `k` — the successive values taken by `delay_ms` in the retry loop. -/
def backoffList : Nat → Nat → Nat → List Nat
  | 0, _, _ => []
  | k + 1, d, cap => d :: backoffList k (min (d * 2) cap) cap

/-! ## Batch poller (src/poller.rs) -/

/-- Base URL constant `reddit_base` from `poll_combined_subreddits_loop`. -/
def reddit_base : String := "https://www.reddit.com"

/-- Rust `slice::chunks`: split into consecutive chunks of length `n`, the
last one possibly shorter.  (`chunks(0)` panics in Rust; the `0` case here is
arbitrary and never used — the poller always chunks by 100.) -/
def chunksOf : Nat → List α → List (List α)
  | _, [] => []
  | 0, x :: xs => [x :: xs]
  | n + 1, x :: xs =>
    (x :: xs).take (n + 1) :: chunksOf (n + 1) ((x :: xs).drop (n + 1))
termination_by _ l => l.length
decreasing_by simp [List.length_drop]; omega

/-- Combined batch fetch URL, from
`format!("{}/r/{}/new.json?limit=100", reddit_base, batch.join("+"))`. -/
def batchUrl (base : String) (batch : List String) : String :=
  base ++ "/r/" ++ String.intercalate "+" batch ++ "/new.json?limit=100"

/-- Canonical post URL, from the `post.permalink.map(...).or(post.url)
.unwrap_or_else(...)` chain: prefer the permalink resolved against the base
URL, then the external `url`, then the synthesized comments URL. -/
def buildPostUrl (base : String) (post : RedditPost) : String :=
  match post.permalink with
  | some p => base ++ p
  | none =>
    match post.url with
    | some u => u
    | none => base ++ "/r/" ++ post.subreddit ++ "/comments/" ++ post.id

/-- Freshness window test, from
`now.signed_duration_since(post.created_utc).abs() <= TimeDelta::hours(24)`,
at millisecond resolution (24 h = 86400000 ms). -/
def isWithin24h (now created_utc : Int) : Bool :=
  decide ((now - created_utc).natAbs ≤ 86400000)

/-- Observable events of one poll cycle, used to state what the loop body
does: rate-limiter waits, HTTP fetches, per-post filtering decisions, dedup
calls, and notifier dispatches. -/
inductive PollEvent where
  | mappingsFetchFailed
  | acquiredToken
  | httpGet (url : String)
  | fetchFailed (url : String)
  | skippedOutsideWindow (subreddit post_id : String)
  | dedupCalled (subreddit post_id : String) (result : Except String Bool)
  | dedupFailedSkipped (subreddit post_id : String)
  | skippedDuplicate (subreddit post_id : String)
  | noEndpoints (subreddit post_id : String)
  | buildNotifierFailed (endpoint_id : Int)
  | sendInvoked (endpoint_id : Int) (subreddit title url : String)
      (result : Except String Unit)

/-- Endpoint deduplication by id with a seen-set, from the
`unique_endpoint_ids.insert(e.id)` filter: keeps the first occurrence of each
id, in order. -/
def uniqueEndpointsGo (seen : List Int) : List EndpointRow → List EndpointRow
  | [] => []
  | e :: rest =>
    if e.id ∈ seen then uniqueEndpointsGo seen rest
    else e :: uniqueEndpointsGo (e.id :: seen) rest

/-- Deduplicated endpoint list (`unique_endpoints` in the poller). -/
def uniqueEndpoints (eps : List EndpointRow) : List EndpointRow :=
  uniqueEndpointsGo [] eps

/-- Outcomes of the effectful notification calls, supplied by the
environment: the dedup-store insert (`record_if_new` against the pool),
`build_notifier`, and `Notifier::send`. -/
structure NotifyEnv where
  dedup : String → String → Except String Bool
  buildNotifier : EndpointRow → Except String Unit
  send : EndpointRow → String → String → String → Except String Unit

/-- Per-endpoint body of the dispatch loop: `build_notifier` then `send`,
each failure logged (recorded as an event) and never propagated. -/
def dispatchToEndpoint (env : NotifyEnv) (subreddit title url : String)
    (ep : EndpointRow) : PollEvent :=
  match env.buildNotifier ep with
  | .ok _ => .sendInvoked ep.id subreddit title url (env.send ep subreddit title url)
  | .error _ => .buildNotifierFailed ep.id

/-- Per-post body of the poller loop (lines 104–194 of `src/poller.rs`):
freshness filter, dedup gate (fail closed on store error), endpoint
resolution from the cycle's mapping, endpoint dedup, URL construction, and
the dispatch fan-out. -/
def processPost (base : String) (now : Int)
    (mappings : List (String × List EndpointRow)) (env : NotifyEnv)
    (post : RedditPost) : List PollEvent :=
  if !isWithin24h now post.created_utc then
    [.skippedOutsideWindow post.subreddit post.id]
  else
    let dres := env.dedup post.subreddit post.id
    .dedupCalled post.subreddit post.id dres ::
      match dres with
      | .error _ => [.dedupFailedSkipped post.subreddit post.id]
      | .ok false => [.skippedDuplicate post.subreddit post.id]
      | .ok true =>
        match lookupMapping mappings post.subreddit with
        | none => [.noEndpoints post.subreddit post.id]
        | some eps =>
          (uniqueEndpoints eps).map
            (dispatchToEndpoint env post.subreddit post.title (buildPostUrl base post))

/-- Per-cycle environment: the clock reading, the mapping-fetch outcome, the
HTTP outcome per URL, and the notification-call outcomes. -/
structure CycleEnv where
  now : Int
  mappingsResult : Except String (List (String × List EndpointRow))
  http : String → Except String RedditListing
  notify : NotifyEnv

/-- Per-batch body of the poller loop: acquire a rate-limiter token, issue one
GET to the combined URL, and on success process every returned item in order;
a failed fetch (HTTP error, non-success status, or unparseable body) only
skips this batch. -/
def pollBatch (base : String) (now : Int)
    (mappings : List (String × List EndpointRow)) (notify : NotifyEnv)
    (http : String → Except String RedditListing) (batch : List String) :
    List PollEvent :=
  .acquiredToken :: .httpGet (batchUrl base batch) ::
    match http (batchUrl base batch) with
    | .error _ => [.fetchFailed (batchUrl base batch)]
    | .ok listing =>
      (listing.data.children.map (fun child =>
        processPost base now mappings notify child.data)).flatten

/-- One iteration of the infinite `loop`: fetch the feed→endpoint mapping
once; on failure `continue` to the next iteration, otherwise poll every batch
in partition order. -/
def pollCycle (base : String) (env : CycleEnv) (batches : List (List String)) :
    List PollEvent :=
  match env.mappingsResult with
  | .error _ => [.mappingsFetchFailed]
  | .ok mappings =>
    (batches.map (pollBatch base env.now mappings env.notify env.http)).flatten

/-- The infinite `loop` of `poll_combined_subreddits_loop`, run for `fuel`
iterations (cycle `k` uses environment `env k`): the body has no `break` or
`return`, so the function yields `some` result only through the empty-input
early return — never from inside the loop. -/
def pollIterate (base : String) (env : Nat → CycleEnv)
    (batches : List (List String)) : Nat → Nat → Option (Except String Unit)
  | _, 0 => none
  | k, fuel + 1 =>
    let _cycleTrace := pollCycle base (env k) batches
    pollIterate base env batches (k + 1) fuel

/-- Entry point, from `poll_combined_subreddits_loop`: return `Ok(())`
immediately when the subreddit list is empty, otherwise partition into batches
of at most 100 and loop forever. -/
def poll_combined_subreddits_loop (base : String) (env : Nat → CycleEnv)
    (subreddits : List String) (fuel : Nat) : Option (Except String Unit) :=
  if subreddits.isEmpty then some (.ok ())
  else pollIterate base env (chunksOf 100 subreddits) 0 fuel

/-- Url of a GET event, `none` for every other event. -/
def httpGetUrl : PollEvent → Option String
  | .httpGet u => some u
  | _ => none

/-- Urls of the GET requests recorded in a trace. -/
def fetchUrls (trace : List PollEvent) : List String :=
  trace.filterMap httpGetUrl

/-! ## Theorems -/

/-- C1: for every (feed, id) pair not yet in the ledger, calling
`record_if_new` twice returns `true` on the first call and `false` on the
second, exactly one ledger row for the pair exists afterward, and the
duplicate insert leaves the database unchanged (a no-op). -/
theorem record_if_new_idempotent (db : Db) (feed id : String)
    (h : (feed, id) ∉ db.notified_posts) :
    (record_if_new db feed id).1 = true ∧
    (record_if_new (record_if_new db feed id).2 feed id).1 = false ∧
    (record_if_new (record_if_new db feed id).2 feed id).2.notified_posts.count
      (feed, id) = 1 ∧
    (record_if_new (record_if_new db feed id).2 feed id).2 =
      (record_if_new db feed id).2 := by
  simp only [record_if_new, if_neg h]
  have hmem : (feed, id) ∈ db.notified_posts ++ [(feed, id)] := by
    simp
  simp only [if_pos hmem]
  have hcount : db.notified_posts.count (feed, id) = 0 :=
    List.count_eq_zero.mpr h
  simp [List.count_append, hcount]

/-- C1 witness: on an empty database, recording `("rust", "abc")` twice
returns `true` then `false` and leaves exactly one ledger row. -/
theorem record_if_new_idempotent_witness :
    (record_if_new ⟨[], [], [], []⟩ "rust" "abc").1 = true ∧
    (record_if_new (record_if_new ⟨[], [], [], []⟩ "rust" "abc").2 "rust" "abc").1 = false ∧
    (record_if_new (record_if_new ⟨[], [], [], []⟩ "rust" "abc").2 "rust" "abc").2.notified_posts.count
      ("rust", "abc") = 1 ∧
    (record_if_new (record_if_new ⟨[], [], [], []⟩ "rust" "abc").2 "rust" "abc").2 =
      (record_if_new ⟨[], [], [], []⟩ "rust" "abc").2 :=
  record_if_new_idempotent ⟨[], [], [], []⟩ "rust" "abc" (by simp)

/-- Helper: the dispatch body yields either a send invocation or a
build-failure record, and nothing else. -/
theorem dispatchToEndpoint_cases (env : NotifyEnv) (subreddit title url : String)
    (ep : EndpointRow) :
    dispatchToEndpoint env subreddit title url ep =
      .sendInvoked ep.id subreddit title url (env.send ep subreddit title url) ∨
    ∃ msg, env.buildNotifier ep = .error msg ∧
      dispatchToEndpoint env subreddit title url ep = .buildNotifierFailed ep.id := by
  unfold dispatchToEndpoint
  cases hb : env.buildNotifier ep with
  | ok v => left; rfl
  | error msg => right; exact ⟨msg, rfl, rfl⟩

/-- Helper: every send event in the trace of `processPost` passed the
freshness window, passed the dedup gate with `Ok(true)`, and carries the
post's subreddit, title and canonical URL together with the outcome of its
own endpoint's `send`. -/
theorem processPost_send_characterization (base : String) (now : Int)
    (mappings : List (String × List EndpointRow)) (env : NotifyEnv)
    (post : RedditPost) (eid : Int) (f t u : String) (r : Except String Unit)
    (hmem : PollEvent.sendInvoked eid f t u r ∈
      processPost base now mappings env post) :
    isWithin24h now post.created_utc = true ∧
    env.dedup post.subreddit post.id = Except.ok true ∧
    PollEvent.dedupCalled post.subreddit post.id (Except.ok true) ∈
      processPost base now mappings env post ∧
    f = post.subreddit ∧ t = post.title ∧ u = buildPostUrl base post ∧
    ∃ eps, lookupMapping mappings post.subreddit = some eps ∧
      ∃ ep, ep ∈ uniqueEndpoints eps ∧ ep.id = eid ∧
        env.buildNotifier ep = Except.ok () ∧
        r = env.send ep post.subreddit post.title (buildPostUrl base post) := by
  by_cases hw : isWithin24h now post.created_utc
  · cases hdres : env.dedup post.subreddit post.id with
    | error e => simp [processPost, hw, hdres] at hmem
    | ok b =>
      cases b with
      | false => simp [processPost, hw, hdres] at hmem
      | true =>
        cases hlook : lookupMapping mappings post.subreddit with
        | none => simp [processPost, hw, hdres, hlook] at hmem
        | some eps =>
          simp only [processPost, hw, Bool.not_true, Bool.false_eq_true,
            if_false, hdres, hlook, List.mem_cons, List.mem_map] at hmem
          rcases hmem with hbad | ⟨ep, hep, hdisp⟩
          · exact absurd hbad (by simp)
          · rcases dispatchToEndpoint_cases env post.subreddit post.title
              (buildPostUrl base post) ep with hok | ⟨msg, _, hfail⟩
            · rw [hok] at hdisp
              obtain ⟨h1, h2, h3, h4, h5⟩ := PollEvent.sendInvoked.inj hdisp
              refine ⟨hw, rfl, ?_, h2.symm, h3.symm, h4.symm,
                eps, rfl, ep, hep, h1, ?_, h5.symm⟩
              · simp [processPost, hw, hdres, hlook]
              · cases hb : env.buildNotifier ep with
                | ok v => cases v; rfl
                | error msg' =>
                  unfold dispatchToEndpoint at hok
                  rw [hb] at hok
                  exact absurd hok (by simp)
            · rw [hfail] at hdisp
              exact absurd hdisp (by simp)
  · simp [processPost, hw] at hmem

/-- C2: a notification send is performed for an item only if the dedup gate
`record_if_new` was called for that item and returned `true`; when the gate
returns `false` or the store call errors, no send happens for that item. -/
theorem dedup_gate_precedes_dispatch (base : String) (now : Int)
    (mappings : List (String × List EndpointRow)) (env : NotifyEnv)
    (post : RedditPost) :
    (∀ eid f t u r, PollEvent.sendInvoked eid f t u r ∈
        processPost base now mappings env post →
      env.dedup post.subreddit post.id = Except.ok true ∧
      PollEvent.dedupCalled post.subreddit post.id (Except.ok true) ∈
        processPost base now mappings env post) ∧
    ((env.dedup post.subreddit post.id = Except.ok false ∨
        ∃ msg, env.dedup post.subreddit post.id = Except.error msg) →
      ∀ eid f t u r, PollEvent.sendInvoked eid f t u r ∉
        processPost base now mappings env post) := by
  constructor
  · intro eid f t u r hmem
    obtain ⟨_, hded, hcall, _⟩ :=
      processPost_send_characterization base now mappings env post eid f t u r hmem
    exact ⟨hded, hcall⟩
  · rintro hgate eid f t u r hmem
    obtain ⟨_, hded, _⟩ :=
      processPost_send_characterization base now mappings env post eid f t u r hmem
    rcases hgate with hfalse | ⟨msg, herr⟩
    · rw [hded] at hfalse
      exact absurd hfalse (by simp)
    · rw [hded] at herr
      exact absurd herr (by simp)

/-- Sample post used by concrete witnesses: a fresh post in r/rust with a
permalink. -/
def samplePost : RedditPost :=
  { id := "abc", title := "Hello", subreddit := "rust",
    permalink := some "/r/rust/comments/abc", url := none, created_utc := 0 }

/-- Notification environment whose dedup store reports every pair as already
notified. -/
def alreadySeenEnv : NotifyEnv :=
  { dedup := fun _ _ => .ok false, buildNotifier := fun _ => .ok (),
    send := fun _ _ _ _ => .ok () }

/-- C2 witness: with a store reporting the sample post as a duplicate, no
send event appears in the processing trace. -/
theorem dedup_gate_precedes_dispatch_witness :
    PollEvent.sendInvoked 1 "rust" "Hello" "u" (Except.ok ()) ∉
      processPost reddit_base 0 [] alreadySeenEnv samplePost :=
  (dedup_gate_precedes_dispatch reddit_base 0 [] alreadySeenEnv samplePost).2
    (Or.inl rfl) 1 "rust" "Hello" "u" (Except.ok ())

/-- C3: the freshness filter skips an item exactly when
`|now - created_at|` exceeds 24 hours, for every dedup-store behaviour
(independence of dedup state); an item 24h01m in the past is outside the
window while items 23h59m in the past or future are inside it. -/
theorem freshness_window_iff (base : String) (now : Int)
    (mappings : List (String × List EndpointRow)) (env : NotifyEnv)
    (post : RedditPost) :
    (PollEvent.skippedOutsideWindow post.subreddit post.id ∈
        processPost base now mappings env post ↔
      86400000 < (now - post.created_utc).natAbs) ∧
    (isWithin24h now post.created_utc = true ↔
      (now - post.created_utc).natAbs ≤ 86400000) ∧
    isWithin24h 0 (-86460000) = false ∧
    isWithin24h 0 (-86340000) = true ∧
    isWithin24h 0 86340000 = true := by
  refine ⟨⟨?_, ?_⟩, by simp [isWithin24h], by decide, by decide, by decide⟩
  · intro hmem
    by_contra hle
    have hw : isWithin24h now post.created_utc = true := by
      simp only [isWithin24h, decide_eq_true_eq]
      omega
    cases hdres : env.dedup post.subreddit post.id with
    | error e => simp [processPost, hw, hdres] at hmem
    | ok b =>
      cases b with
      | false => simp [processPost, hw, hdres] at hmem
      | true =>
        cases hlook : lookupMapping mappings post.subreddit with
        | none => simp [processPost, hw, hdres, hlook] at hmem
        | some eps =>
          simp only [processPost, hw, Bool.not_true, Bool.false_eq_true,
            if_false, hdres, hlook, List.mem_cons, List.mem_map] at hmem
          rcases hmem with hbad | ⟨ep, _, hdisp⟩
          · exact absurd hbad (by simp)
          · rcases dispatchToEndpoint_cases env post.subreddit post.title
              (buildPostUrl base post) ep with hok | ⟨msg, _, hfail⟩
            · rw [hok] at hdisp
              exact absurd hdisp (by simp)
            · rw [hfail] at hdisp
              exact absurd hdisp (by simp)
  · intro hgt
    have hw : isWithin24h now post.created_utc = false := by
      simp only [isWithin24h, decide_eq_false_iff_not]
      omega
    simp [processPost, hw]

/-- C9: the canonical URL of a dispatched notification is the base URL
concatenated with the permalink when present, else the item's external URL
when present, else the synthesized `{base}/r/{feed}/comments/{id}` fallback;
and every send event carries exactly this URL. -/
theorem canonical_post_url (base : String) (post : RedditPost) :
    (∀ p, post.permalink = some p → buildPostUrl base post = base ++ p) ∧
    (post.permalink = none → ∀ u, post.url = some u →
      buildPostUrl base post = u) ∧
    (post.permalink = none → post.url = none →
      buildPostUrl base post =
        base ++ "/r/" ++ post.subreddit ++ "/comments/" ++ post.id) ∧
    (∀ (now : Int) mappings (env : NotifyEnv) eid f t u r,
      PollEvent.sendInvoked eid f t u r ∈ processPost base now mappings env post →
      u = buildPostUrl base post) := by
  refine ⟨?_, ?_, ?_, ?_⟩
  · intro p hp
    simp [buildPostUrl, hp]
  · intro hp u hu
    simp [buildPostUrl, hp, hu]
  · intro hp hu
    simp [buildPostUrl, hp, hu]
  · intro now mappings env eid f t u r hmem
    obtain ⟨_, _, _, _, _, hurl, _⟩ :=
      processPost_send_characterization base now mappings env post eid f t u r hmem
    exact hurl

/-- C9 witness: the sample post has a permalink, and its canonical URL is the
base URL concatenated with that permalink. -/
theorem canonical_post_url_witness :
    buildPostUrl reddit_base samplePost = reddit_base ++ "/r/rust/comments/abc" :=
  (canonical_post_url reddit_base samplePost).1 "/r/rust/comments/abc" rfl

/-- Cycle environment for concrete runs: an empty mapping, unreachable
network, and a failing store. -/
def offlineCycleEnv : CycleEnv :=
  { now := 0, mappingsResult := .ok [],
    http := fun _ => .error "offline",
    notify := { dedup := fun _ _ => .error "offline",
                buildNotifier := fun _ => .error "offline",
                send := fun _ _ _ _ => .error "offline" } }

/-- C4 counterexample: called with the empty feed list, the poller returns
normally (`Ok(())`) on its own — the claim's "for every input feed list" is
refuted by the early return at the top of `poll_combined_subreddits_loop`. -/
theorem poll_loop_empty_list_returns :
    poll_combined_subreddits_loop reddit_base (fun _ => offlineCycleEnv) [] 5 =
      some (Except.ok ()) := rfl

/-- Helper: the loop body contains no `break` or `return`, so iterating it
never produces a result, whatever the environments do. -/
theorem pollIterate_eq_none (base : String) (env : Nat → CycleEnv)
    (batches : List (List String)) :
    ∀ fuel k, pollIterate base env batches k fuel = none := by
  intro fuel
  induction fuel with
  | zero => intro k; rfl
  | succ n ih => intro k; exact ih (k + 1)

/-- C4 (amended): for every non-empty input feed list the poller loop never
returns normally, for any environment behaviour and any number of
iterations; only the empty feed list triggers the immediate `Ok(())`
early return. -/
theorem poll_loop_nonempty_never_returns (base : String) (env : Nat → CycleEnv)
    (subreddits : List String) (h : subreddits ≠ []) (fuel : Nat) :
    poll_combined_subreddits_loop base env subreddits fuel = none := by
  unfold poll_combined_subreddits_loop
  rw [if_neg (by simpa using h)]
  exact pollIterate_eq_none base env (chunksOf 100 subreddits) fuel 0

/-- C4 witness: polling the single feed `"rust"` for three cycles yields no
result. -/
theorem poll_loop_nonempty_never_returns_witness :
    poll_combined_subreddits_loop reddit_base (fun _ => offlineCycleEnv)
      ["rust"] 3 = none :=
  poll_loop_nonempty_never_returns reddit_base (fun _ => offlineCycleEnv)
    ["rust"] (by simp) 3

/-- Helper: starting with `f` allowed retries, the loop makes at most
`f + 1` connection attempts. -/
theorem connectGo_attempts_le (attemptOk : Nat → Bool) (cap : Nat) :
    ∀ f a d, (connectGo attemptOk cap f a d).2.1 ≤ f + 1 := by
  intro f
  induction f with
  | zero => intro a d; simp [connectGo]
  | succ n ih =>
    intro a d
    by_cases hok : attemptOk a
    · simp [connectGo, hok]
    · simp only [connectGo, hok, if_false, Bool.false_eq_true]
      have := ih (a + 1) (min (d * 2) cap)
      omega

/-- Helper: when every attempt fails, the loop makes exactly `f + 1`
attempts, returns the failure, and sleeps the full backoff sequence. -/
theorem connectGo_all_fail (cap : Nat) :
    ∀ f a d, connectGo (fun _ => false) cap f a d =
      (false, f + 1, backoffList f d cap) := by
  intro f
  induction f with
  | zero => intro a d; simp [connectGo, backoffList]
  | succ n ih =>
    intro a d
    simp [connectGo, backoffList, ih (a + 1) (min (d * 2) cap)]

/-- Helper: once the delay has reached the cap it stays constant. -/
theorem backoffList_const (cap : Nat) :
    ∀ k, backoffList k cap cap = List.replicate k cap := by
  intro k
  induction k with
  | zero => rfl
  | succ n ih =>
    have hmin : min (cap * 2) cap = cap := by omega
    simp [backoffList, hmin, ih, List.replicate_succ]

/-- C6 (amended): `connect_with_retry` makes at most `max(max_retries, 1)`
connection attempts (for `max_retries = 0` the source still makes one
attempt); between consecutive failed attempts it sleeps the delay sequence
`d₁ = initial_delay, dₖ₊₁ = min(2·dₖ, max_delay)`, which exactly doubles
while `2·d ≤ max_delay` and stays constant at the cap; when every attempt
fails, the final error is propagated after `max(max_retries, 1)` attempts;
for initial 100 ms and cap 1000 ms the slept delays are
100, 200, 400, 800, 1000, 1000. -/
theorem connect_with_retry_backoff (attemptOk : Nat → Bool)
    (cfg : ConnectionConfig) :
    (connect_with_retry attemptOk cfg).2.1 ≤ max cfg.max_retries 1 ∧
    connect_with_retry (fun _ => false) cfg =
      (false, max cfg.max_retries 1,
        backoffList (max cfg.max_retries 1 - 1) cfg.initial_delay_ms
          cfg.max_delay_ms) ∧
    (∀ k d, d * 2 ≤ cfg.max_delay_ms →
      backoffList (k + 1) d cfg.max_delay_ms =
        d :: backoffList k (d * 2) cfg.max_delay_ms) ∧
    (∀ k, backoffList k cfg.max_delay_ms cfg.max_delay_ms =
      List.replicate k cfg.max_delay_ms) ∧
    connect_with_retry (fun _ => false) ⟨7, 100, 1000⟩ =
      (false, 7, [100, 200, 400, 800, 1000, 1000]) := by
  refine ⟨?_, ?_, ?_, backoffList_const cfg.max_delay_ms, by decide⟩
  · have h := connectGo_attempts_le attemptOk cfg.max_delay_ms
      (cfg.max_retries - 1) 1 cfg.initial_delay_ms
    unfold connect_with_retry
    omega
  · unfold connect_with_retry
    rw [connectGo_all_fail]
    have h1 : cfg.max_retries - 1 + 1 = max cfg.max_retries 1 := by omega
    have h2 : cfg.max_retries - 1 = max cfg.max_retries 1 - 1 := by omega
    rw [h1, h2]
  · intro k d hd
    have hmin : min (d * 2) cfg.max_delay_ms = d * 2 := Nat.min_eq_left hd
    simp [backoffList, hmin]

/-- C6 witness: at most `max(7, 1)` attempts are made with seven retries
allowed, and with a 1000 ms cap the 100 ms delay exactly doubles. -/
theorem connect_with_retry_backoff_witness :
    (connect_with_retry (fun _ => false) ⟨7, 100, 1000⟩).2.1 ≤ max 7 1 ∧
    backoffList 2 100 1000 = 100 :: backoffList 1 200 1000 :=
  ⟨(connect_with_retry_backoff (fun _ => false) ⟨7, 100, 1000⟩).1,
   (connect_with_retry_backoff (fun _ => false) ⟨7, 100, 1000⟩).2.2.1 1 100
     (by decide)⟩

/-- C6 counterexample: with `max_retries = 0` and a failing store the source
still makes one connection attempt, so "at most `max_retries` attempts" is
false as stated. -/
theorem connect_with_retry_zero_retries :
    (connect_with_retry (fun _ => false) ⟨0, 100, 1000⟩).2.1 = 1 ∧
    ¬((connect_with_retry (fun _ => false) ⟨0, 100, 1000⟩).2.1 ≤ 0) := by
  decide

/-- C7: when an item passed the dedup gate, a build or send failure on one
resolved endpoint does not prevent `send` from being invoked on any other
endpoint; the trace is exactly one dispatch event per unique endpoint (the
failure is recorded, never propagated out of the dispatch loop), and each
item of a batch is processed by its own `processPost` run, so failures do
not affect subsequent items either. -/
theorem fanout_isolation (base : String) (now : Int)
    (mappings : List (String × List EndpointRow)) (env : NotifyEnv)
    (post : RedditPost) (eps : List EndpointRow) (ep ep' : EndpointRow)
    (msg : String)
    (hw : isWithin24h now post.created_utc = true)
    (hded : env.dedup post.subreddit post.id = Except.ok true)
    (hlook : lookupMapping mappings post.subreddit = some eps)
    (hep : ep ∈ uniqueEndpoints eps)
    (hep' : ep' ∈ uniqueEndpoints eps)
    (hne : ep.id ≠ ep'.id)
    (hfail : env.buildNotifier ep' = Except.error msg ∨
      env.send ep' post.subreddit post.title (buildPostUrl base post) =
        Except.error msg)
    (hbuild : env.buildNotifier ep = Except.ok ()) :
    PollEvent.sendInvoked ep.id post.subreddit post.title
        (buildPostUrl base post)
        (env.send ep post.subreddit post.title (buildPostUrl base post)) ∈
      processPost base now mappings env post ∧
    processPost base now mappings env post =
      PollEvent.dedupCalled post.subreddit post.id (Except.ok true) ::
        (uniqueEndpoints eps).map
          (dispatchToEndpoint env post.subreddit post.title
            (buildPostUrl base post)) ∧
    (∀ (http : String → Except String RedditListing) (batch : List String)
        (listing : RedditListing),
      http (batchUrl base batch) = Except.ok listing →
      pollBatch base now mappings env http batch =
        PollEvent.acquiredToken :: PollEvent.httpGet (batchUrl base batch) ::
          (listing.data.children.map (fun child =>
            processPost base now mappings env child.data)).flatten) := by
  have htrace : processPost base now mappings env post =
      PollEvent.dedupCalled post.subreddit post.id (Except.ok true) ::
        (uniqueEndpoints eps).map
          (dispatchToEndpoint env post.subreddit post.title
            (buildPostUrl base post)) := by
    simp [processPost, hw, hded, hlook]
  refine ⟨?_, htrace, ?_⟩
  · rw [htrace]
    apply List.mem_cons_of_mem
    have hd : dispatchToEndpoint env post.subreddit post.title
        (buildPostUrl base post) ep =
        PollEvent.sendInvoked ep.id post.subreddit post.title
          (buildPostUrl base post)
          (env.send ep post.subreddit post.title (buildPostUrl base post)) := by
      unfold dispatchToEndpoint
      rw [hbuild]
    rw [← hd]
    exact List.mem_map_of_mem _ hep
  · intro http batch listing hh
    simp [pollBatch, hh]

/-- Endpoint fixtures for the fan-out witness. -/
def epDiscord1 : EndpointRow :=
  { id := 1, kind := .discord, config_json := "{}", active := true, note := none }

/-- Second endpoint fixture, distinct id. -/
def epDiscord2 : EndpointRow :=
  { id := 2, kind := .discord, config_json := "{}", active := true, note := none }

/-- Notify environment where delivery always fails on endpoint id 2 and
succeeds elsewhere. -/
def failSecondEnv : NotifyEnv :=
  { dedup := fun _ _ => .ok true, buildNotifier := fun _ => .ok (),
    send := fun ep _ _ _ => if ep.id = 2 then .error "fail" else .ok () }

/-- C7 witness: with two endpoints where delivery on id 2 always fails,
`send` is still invoked on endpoint id 1. -/
theorem fanout_isolation_witness :
    PollEvent.sendInvoked 1 "rust" "Hello" (buildPostUrl reddit_base samplePost)
        (failSecondEnv.send epDiscord1 "rust" "Hello"
          (buildPostUrl reddit_base samplePost)) ∈
      processPost reddit_base 0 [("rust", [epDiscord1, epDiscord2])]
        failSecondEnv samplePost :=
  (fanout_isolation reddit_base 0 [("rust", [epDiscord1, epDiscord2])]
    failSecondEnv samplePost [epDiscord1, epDiscord2] epDiscord1 epDiscord2
    "fail" (by decide) rfl (by decide) (by decide) (by decide) (by decide)
    (Or.inr rfl) rfl).1

/-- Helper: the chunks of a list concatenate back to the list. -/
theorem chunksOf_flatten (n : Nat) :
    ∀ xs : List α, (chunksOf (n + 1) xs).flatten = xs
  | [] => by simp [chunksOf]
  | x :: xs => by
    simp only [chunksOf, List.flatten_cons]
    rw [chunksOf_flatten n ((x :: xs).drop (n + 1))]
    exact List.take_append_drop (n + 1) (x :: xs)
termination_by xs => xs.length
decreasing_by simp [List.length_drop]; omega

/-- Helper: every chunk is non-empty and of length at most the chunk size. -/
theorem chunksOf_mem_length (n : Nat) :
    ∀ xs b : List α, b ∈ chunksOf (n + 1) xs → b ≠ [] ∧ b.length ≤ n + 1
  | [] => by simp [chunksOf]
  | x :: xs => by
    intro b hb
    simp only [chunksOf, List.mem_cons] at hb
    rcases hb with h | h
    · subst h
      refine ⟨by simp [List.take_succ_cons], ?_⟩
      simpa using List.length_take_le (n + 1) (x :: xs)
    · exact chunksOf_mem_length n ((x :: xs).drop (n + 1)) b h
termination_by xs => xs.length
decreasing_by simp [List.length_drop]; omega

/-- Helper: per-post processing performs no HTTP GET. -/
theorem processPost_no_httpGet (base : String) (now : Int)
    (mappings : List (String × List EndpointRow)) (env : NotifyEnv)
    (post : RedditPost) (u : String) :
    PollEvent.httpGet u ∉ processPost base now mappings env post := by
  intro hmem
  by_cases hw : isWithin24h now post.created_utc
  · cases hdres : env.dedup post.subreddit post.id with
    | error e => simp [processPost, hw, hdres] at hmem
    | ok b =>
      cases b with
      | false => simp [processPost, hw, hdres] at hmem
      | true =>
        cases hlook : lookupMapping mappings post.subreddit with
        | none => simp [processPost, hw, hdres, hlook] at hmem
        | some eps =>
          simp only [processPost, hw, Bool.not_true, Bool.false_eq_true,
            if_false, hdres, hlook, List.mem_cons, List.mem_map] at hmem
          rcases hmem with hbad | ⟨ep, _, hdisp⟩
          · exact absurd hbad (by simp)
          · rcases dispatchToEndpoint_cases env post.subreddit post.title
              (buildPostUrl base post) ep with hok | ⟨msg, _, hfail⟩
            · rw [hok] at hdisp
              exact absurd hdisp (by simp)
            · rw [hfail] at hdisp
              exact absurd hdisp (by simp)
  · simp [processPost, hw] at hmem

/-- Helper: extracting GET urls distributes over concatenation of traces. -/
theorem fetchUrls_flatten :
    ∀ ls : List (List PollEvent),
      fetchUrls ls.flatten = (ls.map fetchUrls).flatten
  | [] => rfl
  | l :: ls => by
    simp only [List.flatten_cons, fetchUrls, List.filterMap_append,
      List.map_cons]
    rw [← fetchUrls_flatten ls]
    rfl

/-- Helper: one batch records exactly one GET, to the combined batch URL. -/
theorem fetchUrls_pollBatch (base : String) (now : Int)
    (mappings : List (String × List EndpointRow)) (env : NotifyEnv)
    (http : String → Except String RedditListing) (batch : List String) :
    fetchUrls (pollBatch base now mappings env http batch) =
      [batchUrl base batch] := by
  cases hh : http (batchUrl base batch) with
  | error e => simp [pollBatch, hh, fetchUrls, httpGetUrl]
  | ok listing =>
    have htail : ∀ e ∈ (listing.data.children.map (fun child =>
        processPost base now mappings env child.data)).flatten,
        httpGetUrl e = none := by
      intro e he
      rw [List.mem_flatten] at he
      obtain ⟨l, hl, hel⟩ := he
      rw [List.mem_map] at hl
      obtain ⟨child, _, rfl⟩ := hl
      cases e <;> try rfl
      case httpGet u =>
        exact absurd hel (processPost_no_httpGet base now mappings env child.data u)
    simp [pollBatch, hh, fetchUrls, httpGetUrl, List.filterMap_eq_nil.mpr htail]

/-- Helper: flattening singleton images is mapping. -/
theorem flatten_map_singleton (f : α → β) :
    ∀ l : List α, (l.map (fun a => [f a])).flatten = l.map f
  | [] => rfl
  | x :: xs => by simp [flatten_map_singleton f xs]

/-- C8: the poller partitions every non-empty feed list into consecutive
batches of at most 100 whose in-order concatenation is the original list,
and a cycle with a successful mapping fetch issues exactly one GET per
batch, to `{base}/r/{names joined with +}/new.json?limit=100`. -/
theorem batching_partition (base : String) (env : CycleEnv)
    (subreddits : List String) (ms : List (String × List EndpointRow))
    (h : subreddits ≠ []) (hm : env.mappingsResult = Except.ok ms) :
    (∀ b ∈ chunksOf 100 subreddits, b ≠ [] ∧ b.length ≤ 100) ∧
    (chunksOf 100 subreddits).flatten = subreddits ∧
    fetchUrls (pollCycle base env (chunksOf 100 subreddits)) =
      (chunksOf 100 subreddits).map (batchUrl base) ∧
    (∀ batch, batchUrl base batch =
      base ++ "/r/" ++ String.intercalate "+" batch ++ "/new.json?limit=100") := by
  refine ⟨?_, ?_, ?_, fun batch => rfl⟩
  · intro b hb
    exact chunksOf_mem_length 99 subreddits b hb
  · exact chunksOf_flatten 99 subreddits
  · simp only [pollCycle, hm]
    rw [fetchUrls_flatten, List.map_map]
    have hmap : (chunksOf 100 subreddits).map
        (fetchUrls ∘ pollBatch base env.now ms env.notify env.http) =
        (chunksOf 100 subreddits).map (fun b => [batchUrl base b]) := by
      apply List.map_congr_left
      intro b _
      exact fetchUrls_pollBatch base env.now ms env.notify env.http b
    rw [hmap, flatten_map_singleton]

/-- C8 witness: two feeds form a single batch that concatenates back to the
feed list. -/
theorem batching_partition_witness :
    (chunksOf 100 ["rust", "golang"]).flatten = ["rust", "golang"] :=
  (batching_partition reddit_base offlineCycleEnv ["rust", "golang"] []
    (by simp) rfl).2.1

/-- Helper: below the `u32` wrap, the refill adds exactly
`floor(elapsed / refill_interval)` tokens capped at `max_tokens`, touching
`last_refill` only when at least one token is added. -/
theorem refillTokens_eq (maxTokens refillMs now : Nat) (s : RateLimiterState)
    (h : (now - s.last_refill) / refillMs + s.tokens < U32_MOD) :
    refillTokens maxTokens refillMs now s =
      if 0 < (now - s.last_refill) / refillMs then
        { tokens := min (s.tokens + (now - s.last_refill) / refillMs) maxTokens,
          last_refill := now }
      else s := by
  have ha : (now - s.last_refill) / refillMs % U32_MOD =
      (now - s.last_refill) / refillMs := Nat.mod_eq_of_lt (by omega)
  have hb : (s.tokens + (now - s.last_refill) / refillMs) % U32_MOD =
      s.tokens + (now - s.last_refill) / refillMs := Nat.mod_eq_of_lt (by omega)
  simp only [refillTokens, ha, hb]

/-- Helper: with a token available after the refill, one token is consumed
and the call returns. -/
theorem acquireStep_acquired (maxTokens refillMs now : Nat)
    (s : RateLimiterState)
    (h : 0 < (refillTokens maxTokens refillMs now s).tokens) :
    RateLimiter.acquireStep maxTokens refillMs now s =
      .acquired { tokens := (refillTokens maxTokens refillMs now s).tokens - 1,
                  last_refill := (refillTokens maxTokens refillMs now s).last_refill } := by
  simp only [RateLimiter.acquireStep, if_pos h]

/-- Helper: with no token available after the refill, the caller sleeps half
a refill interval. -/
theorem acquireStep_sleep (maxTokens refillMs now : Nat)
    (s : RateLimiterState)
    (h : (refillTokens maxTokens refillMs now s).tokens = 0) :
    RateLimiter.acquireStep maxTokens refillMs now s =
      .sleep (refillMs / 2) (refillTokens maxTokens refillMs now s) := by
  simp only [RateLimiter.acquireStep]
  rw [if_neg (by omega)]

/-- C5: one `acquire` pass atomically refills
(`floor(elapsed / refill_interval)` tokens, capped at `max_tokens`,
`last_refill` updated only when tokens were added), consumes a token and
returns when one is available, and otherwise sleeps `refill_interval / 2`
and retries the whole check; a fresh limiter holds exactly one token, so
with a positive capacity the first `acquire` returns without sleeping. -/
theorem acquire_refill_check_consume (maxTokens refillMs now t0 : Nat)
    (s : RateLimiterState) :
    ((now - s.last_refill) / refillMs + s.tokens < U32_MOD →
      refillTokens maxTokens refillMs now s =
        if 0 < (now - s.last_refill) / refillMs then
          { tokens := min (s.tokens + (now - s.last_refill) / refillMs) maxTokens,
            last_refill := now }
        else s) ∧
    (0 < (refillTokens maxTokens refillMs now s).tokens →
      RateLimiter.acquireStep maxTokens refillMs now s =
        .acquired { tokens := (refillTokens maxTokens refillMs now s).tokens - 1,
                    last_refill := (refillTokens maxTokens refillMs now s).last_refill }) ∧
    ((refillTokens maxTokens refillMs now s).tokens = 0 →
      RateLimiter.acquireStep maxTokens refillMs now s =
        .sleep (refillMs / 2) (refillTokens maxTokens refillMs now s)) ∧
    (∀ t rest d s', RateLimiter.acquireStep maxTokens refillMs t s = .sleep d s' →
      d = refillMs / 2 ∧
      RateLimiter.acquire maxTokens refillMs (t :: rest) s =
        Option.map (fun p => (p.1, d :: p.2))
          (RateLimiter.acquire maxTokens refillMs rest s')) ∧
    RateLimiter.new t0 = { tokens := 1, last_refill := t0 } ∧
    (0 < maxTokens → (now - t0) / refillMs + 1 < U32_MOD →
      ∀ rest, RateLimiter.acquire maxTokens refillMs (now :: rest)
          (RateLimiter.new t0) =
        some ({ tokens :=
                  (refillTokens maxTokens refillMs now (RateLimiter.new t0)).tokens - 1,
                last_refill :=
                  (refillTokens maxTokens refillMs now (RateLimiter.new t0)).last_refill },
              [])) := by
  refine ⟨refillTokens_eq maxTokens refillMs now s,
    acquireStep_acquired maxTokens refillMs now s,
    acquireStep_sleep maxTokens refillMs now s, ?_, rfl, ?_⟩
  · intro t rest d s' hstep
    have hd : d = refillMs / 2 ∧ s' = refillTokens maxTokens refillMs t s := by
      by_cases h0 : 0 < (refillTokens maxTokens refillMs t s).tokens
      · rw [acquireStep_acquired maxTokens refillMs t s h0] at hstep
        exact absurd hstep (by simp)
      · rw [acquireStep_sleep maxTokens refillMs t s (by omega)] at hstep
        obtain ⟨h1, h2⟩ := AcquireOutcome.sleep.inj hstep
        exact ⟨h1.symm, h2.symm⟩
    refine ⟨hd.1, ?_⟩
    simp only [RateLimiter.acquire, hstep]
    cases RateLimiter.acquire maxTokens refillMs rest s' with
    | none => rfl
    | some p => cases p; rfl
  · intro hmax hov rest
    have hfresh : 0 < (refillTokens maxTokens refillMs now (RateLimiter.new t0)).tokens := by
      rw [refillTokens_eq maxTokens refillMs now (RateLimiter.new t0)
        (by simpa [RateLimiter.new] using hov)]
      split
      · exact lt_min_iff.mpr
          ⟨Nat.lt_of_lt_of_le Nat.zero_lt_one (Nat.le_add_right 1 _), hmax⟩
      · simp [RateLimiter.new]
    simp [RateLimiter.acquire,
      acquireStep_acquired maxTokens refillMs now (RateLimiter.new t0) hfresh]

/-- C5 witness: a fresh limiter with capacity 5 and a 100 ms interval grants
the first `acquire` immediately, with no sleeps. -/
theorem acquire_refill_check_consume_witness :
    RateLimiter.acquire 5 100 [0] (RateLimiter.new 0) =
      some ({ tokens := 0, last_refill := 0 }, []) :=
  (acquire_refill_check_consume 5 100 0 0 (RateLimiter.new 0)).2.2.2.2.2
    (by decide) (by decide) []

/-- Helper: every endpoint listed in the map after an insert either was
already listed under the same key or is the inserted endpoint under its key. -/
theorem mem_insertMapping (key : String) (ep : EndpointRow) :
    ∀ (m : List (String × List EndpointRow)) (p : String × List EndpointRow),
      p ∈ insertMapping m key ep → ∀ e ∈ p.2,
      (∃ q ∈ m, q.1 = p.1 ∧ e ∈ q.2) ∨ (e = ep ∧ p.1 = key)
  | [], p => by
    intro hp e he
    simp only [insertMapping, List.mem_singleton] at hp
    subst hp
    right
    exact ⟨by simpa using he, rfl⟩
  | (k, eps) :: rest, p => by
    intro hp e he
    simp only [insertMapping] at hp
    by_cases hk : k = key
    · rw [if_pos hk] at hp
      rcases List.mem_cons.1 hp with hpe | hpr
      · subst hpe
        rcases List.mem_append.1 he with h1 | h2
        · exact Or.inl ⟨(k, eps), List.mem_cons_self _ _, rfl, h1⟩
        · exact Or.inr ⟨by simpa using h2, hk⟩
      · exact Or.inl ⟨p, List.mem_cons_of_mem _ hpr, rfl, he⟩
    · rw [if_neg hk] at hp
      rcases List.mem_cons.1 hp with hpe | hpr
      · subst hpe
        exact Or.inl ⟨(k, eps), List.mem_cons_self _ _, rfl, he⟩
      · rcases mem_insertMapping key ep rest p hpr e he with ⟨q, hq, h1, h2⟩ | hr
        · exact Or.inl ⟨q, List.mem_cons_of_mem _ hq, h1, h2⟩
        · exact Or.inr hr

/-- Helper: inserting never creates an empty entry. -/
theorem insertMapping_ne_nil (key : String) (ep : EndpointRow) :
    ∀ (m : List (String × List EndpointRow)),
      (∀ p ∈ m, p.2 ≠ []) → ∀ p ∈ insertMapping m key ep, p.2 ≠ []
  | [] => by
    intro _ p hp
    simp only [insertMapping, List.mem_singleton] at hp
    subst hp
    simp
  | (k, eps) :: rest => by
    intro hm p hp
    simp only [insertMapping] at hp
    by_cases hk : k = key
    · rw [if_pos hk] at hp
      rcases List.mem_cons.1 hp with hpe | hpr
      · subst hpe
        simp
      · exact hm p (List.mem_cons_of_mem _ hpr)
    · rw [if_neg hk] at hp
      rcases List.mem_cons.1 hp with hpe | hpr
      · subst hpe
        exact hm (k, eps) (List.mem_cons_self _ _)
      · exact insertMapping_ne_nil key ep rest
          (fun q hq => hm q (List.mem_cons_of_mem _ hq)) p hpr

/-- Helper: entries built by the grouping fold are never empty. -/
theorem foldl_addMappingRow_ne_nil :
    ∀ (rows : List (String × DbEndpointRow))
      (m0 : List (String × List EndpointRow)),
      (∀ p ∈ m0, p.2 ≠ []) → ∀ p ∈ rows.foldl addMappingRow m0, p.2 ≠ []
  | [], m0 => by
    intro h0 p hp
    exact h0 p hp
  | row :: rest, m0 => by
    intro h0 p hp
    rw [List.foldl_cons] at hp
    refine foldl_addMappingRow_ne_nil rest (addMappingRow m0 row) ?_ p hp
    intro q hq
    unfold addMappingRow at hq
    cases hr : rowToEndpoint row.2 with
    | none =>
      rw [hr] at hq
      exact h0 q hq
    | some ep =>
      rw [hr] at hq
      exact insertMapping_ne_nil row.1 ep m0 h0 q hq

/-- Helper: every endpoint listed after the grouping fold either came from
the initial map or from a query row under the same key whose kind parsed. -/
theorem foldl_addMappingRow_mem :
    ∀ (rows : List (String × DbEndpointRow))
      (m0 : List (String × List EndpointRow)) (p : String × List EndpointRow),
      p ∈ rows.foldl addMappingRow m0 → ∀ e ∈ p.2,
      (∃ q ∈ m0, q.1 = p.1 ∧ e ∈ q.2) ∨
      (∃ r ∈ rows, r.1 = p.1 ∧ rowToEndpoint r.2 = some e)
  | [], m0, p => by
    intro hp e he
    exact Or.inl ⟨p, hp, rfl, he⟩
  | row :: rest, m0, p => by
    intro hp e he
    rw [List.foldl_cons] at hp
    rcases foldl_addMappingRow_mem rest (addMappingRow m0 row) p hp e he with
      ⟨q, hq, h1, h2⟩ | ⟨r, hr, h1, h2⟩
    · unfold addMappingRow at hq
      cases hrow : rowToEndpoint row.2 with
      | none =>
        rw [hrow] at hq
        exact Or.inl ⟨q, hq, h1, h2⟩
      | some ep =>
        rw [hrow] at hq
        rcases mem_insertMapping row.1 ep m0 q hq e h2 with ⟨q', hq', h1', h2'⟩ | ⟨he', hk⟩
        · exact Or.inl ⟨q', hq', h1'.trans h1, h2'⟩
        · subst he'
          exact Or.inr ⟨row, List.mem_cons_self _ _, hk.symm.trans h1, hrow⟩
    · exact Or.inr ⟨r, List.mem_cons_of_mem _ hr, h1, h2⟩

/-- Helper: every row produced by the mapping query has `active = 1`
(the `WHERE e.active = 1` filter). -/
theorem mappingQueryRows_active (db : Db) (r : String × DbEndpointRow)
    (hr : r ∈ mappingQueryRows db) : r.2.active = 1 := by
  simp only [mappingQueryRows, List.mem_flatMap, List.mem_map,
    List.mem_filter] at hr
  obtain ⟨e, ⟨_, hact⟩, se, _, s, _, heq⟩ := hr
  rw [← heq]
  simpa using hact

/-- Helper: a successfully converted row yields an endpoint whose kind is the
parsed kind column and whose `active` flag is the column compared to zero. -/
theorem rowToEndpoint_fields (row : DbEndpointRow) (ep : EndpointRow)
    (h : rowToEndpoint row = some ep) :
    ep.active = (row.active != 0) ∧ EndpointKind.fromStr row.kind = some ep.kind := by
  unfold rowToEndpoint at h
  cases hf : EndpointKind.fromStr row.kind with
  | none =>
    rw [hf] at h
    exact absurd h (by simp)
  | some k =>
    rw [hf] at h
    obtain rfl := Option.some.inj h
    refine ⟨rfl, ?_⟩
    simpa using hf

/-- Helper: a row whose kind does not parse leaves the map untouched. -/
theorem addMappingRow_skip (m : List (String × List EndpointRow))
    (row : String × DbEndpointRow) (h : rowToEndpoint row.2 = none) :
    addMappingRow m row = m := by
  simp [addMappingRow, h]

/-- C10: every map produced by the all-feeds mapping fetch maps each key to a
non-empty endpoint list in which every endpoint is active and comes from a
query row (under the same subreddit key) whose kind column parsed
successfully; and a row whose kind fails to parse is skipped without
affecting the result built from the other rows. -/
theorem all_subreddit_endpoint_mappings_invariant (db : Db) :
    (∀ p ∈ all_subreddit_endpoint_mappings db, p.2 ≠ [] ∧
      ∀ ep ∈ p.2, ep.active = true ∧
        ∃ r ∈ mappingQueryRows db, r.1 = p.1 ∧
          EndpointKind.fromStr r.2.kind = some ep.kind ∧
          rowToEndpoint r.2 = some ep) ∧
    (∀ (pre post : List (String × DbEndpointRow)) (row : String × DbEndpointRow),
      rowToEndpoint row.2 = none →
      (pre ++ row :: post).foldl addMappingRow [] =
        (pre ++ post).foldl addMappingRow []) := by
  constructor
  · intro p hp
    refine ⟨foldl_addMappingRow_ne_nil (mappingQueryRows db) [] (by simp) p hp, ?_⟩
    intro ep hep
    rcases foldl_addMappingRow_mem (mappingQueryRows db) [] p hp ep hep with
      ⟨q, hq, _⟩ | ⟨r, hr, h1, h2⟩
    · simp at hq
    · have hact : r.2.active = 1 := mappingQueryRows_active db r hr
      obtain ⟨hactive, hkind⟩ := rowToEndpoint_fields r.2 ep h2
      refine ⟨?_, r, hr, h1, hkind, h2⟩
      rw [hactive, hact]
      decide
  · intro pre post row h
    rw [List.foldl_append, List.foldl_append, List.foldl_cons,
      addMappingRow_skip _ row h]

/-- Query row with an unparseable kind, for the C10 witness. -/
def badKindRow : String × DbEndpointRow :=
  ("rust", { id := 9, kind := "slack", config_json := "{}", active := 1, note := none })

/-- C10 witness: a single row whose kind fails to parse produces the same map
as no row at all. -/
theorem all_subreddit_endpoint_mappings_invariant_witness :
    (([] : List (String × DbEndpointRow)) ++ badKindRow :: []).foldl
        addMappingRow [] =
      (([] : List (String × DbEndpointRow)) ++ []).foldl addMappingRow [] :=
  (all_subreddit_endpoint_mappings_invariant ⟨[], [], [], []⟩).2 [] [] badKindRow
    (by decide)
